import Mathlib

/-!
Verification of the barcode-scanner core (lambda-barcode-api).

Shallow embedding of the recognition pipeline:
* `services/barcode_scanner.py` — `MultiFormatBarcodeScanner`
  (`scan_multiple_variants`, `validate_result`, `validate_provider_pattern`,
  `detect_format`, `calculate_confidence`, `remove_duplicates`);
* `services/provider_parser.py` + `utils/constants.py` — `ProviderParser`
  (`detect_provider`, `parse`, the per-provider field extractors);
* `services/image_processor.py` — `ImageProcessor.create_variants`.

Modelling conventions:
* Python strings are `List Char` (`Str`); character classes (`\d`, `[A-Z]`,
  `\s`, `str.isprintable`, `str.isdigit`, `str.isalpha`) are modelled at
  ASCII granularity, which covers the payload alphabet of this domain.
* Python floats are modelled as `ℚ`; every constant that appears in the
  source (0.5, 0.3, 0.25, 0.2, 0.15, 0.1, 0.05) is exactly representable,
  and the claims under study concern only order and bounds.
* Regexes from the source are concatenations of character-class
  repetitions; they are modelled by the evaluator `matchSeq`, whose
  semantics (`matchSeq_cons_iff`, `matchSeq_nil_iff`) is the usual
  existential-split semantics of such regexes.  All source patterns are
  anchored at both ends (they are written `^...$` and used with
  `re.match`).
* Decode engines and image transforms are opaque capabilities (the code
  delegates to pyzbar / OpenCV / PIL): they are function parameters, with
  `Option` results modelling raised exceptions (`none` = the call threw).
* A value of type `Option Str` models a Python `Optional[str]` argument;
  `truthy` models the Python truthiness test (`if provider_hint:`), under
  which `none` and the empty string both count as "no hint".
* Python dicts that carry parse results are ordered association lists
  `List (Str × FieldVal)`; Python dict iteration order (insertion order)
  is the list order.
* `sequence_index` is the spec name for the position of a candidate in
  generation order (variant-major, engine-minor append order); the source
  stores a wall-clock `timestamp` instead, which fixes the same order, so
  the model attaches the append position explicitly (`withSeq`).
-/

/-- Python strings, as lists of characters. -/
abbrev Str := List Char

/-- Coerce a Lean string literal to the model type. -/
def str (s : String) : Str := s.data

/-- Class `\d` of the source regexes (ASCII: decimal digit). -/
def isDigitChar (c : Char) : Bool := '0' ≤ c && c ≤ '9'

/-- Class `[A-Z]` of the source regexes. -/
def isUpperChar (c : Char) : Bool := 'A' ≤ c && c ≤ 'Z'

/-- Class `\s` of the source regexes (ASCII whitespace). -/
def isSpaceChar (c : Char) : Bool :=
  c == ' ' || c == '\t' || c == '\n' || c == '\r' || c == '\x0b' || c == '\x0c'

/-- Python `str.isprintable`, per character (ASCII: space through tilde). -/
def isPrintableChar (c : Char) : Bool := ' ' ≤ c && c.toNat ≤ 0x7e

/-- Python `ch.isalpha` (ASCII letter). -/
def isAlphaChar (c : Char) : Bool := isUpperChar c || ('a' ≤ c && c ≤ 'z')

/-- Python `s.isprintable()`: every character printable (true on empty). -/
def isPrintableStr (s : Str) : Bool := s.all isPrintableChar

/-- Python `s.isdigit()`: nonempty and all digits. -/
def isDigitStr (s : Str) : Bool := !s.isEmpty && s.all isDigitChar

/-- One item of an anchored regex: a character class with a repetition
range `{lo,hi}`. -/
abbrev PatItem := Nat × Nat × (Char → Bool)

/-- Class item `c{lo,hi}` of a regex. -/
def cls (lo hi : Nat) (c : Char → Bool) : PatItem := (lo, hi, c)

/-- Literal character item of a regex. -/
def lit (c : Char) : PatItem := (1, 1, fun x => x == c)

/-- Matcher for an anchored concatenation of class repetitions: the whole
string must be consumed.  For each item, some repetition count in range is
chosen; this is exactly the alternation semantics of `c{lo,hi}`. -/
def matchSeq : List PatItem → Str → Bool
  | [], s => s.isEmpty
  | (lo, hi, cl) :: ps, s =>
    (List.range (hi + 1)).any fun k =>
      decide (lo ≤ k) && decide (k ≤ s.length) && (s.take k).all cl && matchSeq ps (s.drop k)

/-- Regex `^\d{6,20}$` (barcode_scanner generic pattern 1). -/
def pat_digits_6_20 (s : Str) : Bool := matchSeq [cls 6 20 isDigitChar] s

/-- Regex `^[A-Z]{2}\d{8,15}$` (generic pattern 2). -/
def pat_upper2_digits (s : Str) : Bool :=
  matchSeq [cls 2 2 isUpperChar, cls 8 15 isDigitChar] s

/-- Regex `^\d{2,3}\s\d{3,15}$` (generic pattern 3). -/
def pat_digits_space_digits (s : Str) : Bool :=
  matchSeq [cls 2 3 isDigitChar, cls 1 1 isSpaceChar, cls 3 15 isDigitChar] s

/-- Regex `^[A-Z0-9\-]{6,25}$` (generic pattern 4). -/
def isUpperDigitHyphen (c : Char) : Bool := isUpperChar c || isDigitChar c || c == '-'

/-- Regex `^[A-Z0-9\-]{6,25}$` (generic pattern 4). -/
def pat_upper_hyphen (s : Str) : Bool := matchSeq [cls 6 25 isUpperDigitHyphen] s

/-- The four generic structural patterns of `validate_result`. -/
def generic_patterns : List (Str → Bool) :=
  [pat_digits_6_20, pat_upper2_digits, pat_digits_space_digits, pat_upper_hyphen]

/-- Regex `^23\d{6}\s\d{8}\s\d{3}$` (seven_ticket pattern 1). -/
def pat_seven_1 (s : Str) : Bool :=
  matchSeq [lit '2', lit '3', cls 6 6 isDigitChar, cls 1 1 isSpaceChar,
            cls 8 8 isDigitChar, cls 1 1 isSpaceChar, cls 3 3 isDigitChar] s

/-- Regex `^\d{6}\s\d{8}\s\d{3}$` (seven_ticket pattern 2). -/
def pat_seven_2 (s : Str) : Bool :=
  matchSeq [cls 6 6 isDigitChar, cls 1 1 isSpaceChar,
            cls 8 8 isDigitChar, cls 1 1 isSpaceChar, cls 3 3 isDigitChar] s

/-- Regex `^64\d{11}$` (ticket_pia pattern 1). -/
def pat_pia_1 (s : Str) : Bool := matchSeq [lit '6', lit '4', cls 11 11 isDigitChar] s

/-- Regex `^640032\d{7}$` (ticket_pia pattern 2). -/
def pat_pia_2 (s : Str) : Bool :=
  matchSeq [lit '6', lit '4', lit '0', lit '0', lit '3', lit '2', cls 7 7 isDigitChar] s

/-- Regex `^30\d{11}$` (lawson_ticket pattern 1). -/
def pat_lawson_1 (s : Str) : Bool := matchSeq [lit '3', lit '0', cls 11 11 isDigitChar] s

/-- Regex `^L\d{10}$` (lawson_ticket pattern 2). -/
def pat_lawson_2 (s : Str) : Bool := matchSeq [lit 'L', cls 10 10 isDigitChar] s

/-- Regex `^EP\d{10}$` (eplus pattern). -/
def pat_eplus (s : Str) : Bool := matchSeq [lit 'E', lit 'P', cls 10 10 isDigitChar] s

/-- Regex `^CN\d{10}$` (cnplayguide pattern). -/
def pat_cn (s : Str) : Bool := matchSeq [lit 'C', lit 'N', cls 10 10 isDigitChar] s

/-- Python truthiness of an `Optional[str]` argument: `None` and the empty
string are both falsy. -/
def truthy : Option Str → Bool
  | none => false
  | some s => !s.isEmpty

/-- The inline `provider_patterns` dict of
`MultiFormatBarcodeScanner.validate_provider_pattern`; `dict.get(provider, [])`
yields the empty pattern list for unknown provider ids. -/
def provider_patterns (provider : Str) : List (Str → Bool) :=
  if provider = str "seven_ticket" then [pat_seven_1, pat_seven_2]
  else if provider = str "ticket_pia" then [pat_pia_1, pat_pia_2]
  else if provider = str "lawson_ticket" then [pat_lawson_1, pat_lawson_2]
  else if provider = str "eplus" then [pat_eplus]
  else if provider = str "cnplayguide" then [pat_cn]
  else []

/-- `MultiFormatBarcodeScanner.validate_provider_pattern`: the data must
match at least one pattern registered for the provider. -/
def validate_provider_pattern (data : Str) (provider : Str) : Bool :=
  (provider_patterns provider).any fun p => p data

/-- `MultiFormatBarcodeScanner.validate_result`.  The source first rejects
empty or short data (`not data or len(data) < 3`; the empty string already
has length < 3), then rejects non-printable data, then branches on the
truthiness of `provider_hint`. -/
def validate_result (data : Str) (provider_hint : Option Str) : Bool :=
  if data.length < 3 then false
  else if !isPrintableStr data then false
  else if truthy provider_hint then validate_provider_pattern data (provider_hint.getD [])
  else generic_patterns.any fun p => p data

/-- Character class `[A-Z0-9\-\.\s\$\/\+%]` of `detect_format`. -/
def isCode39Char (c : Char) : Bool :=
  isUpperChar c || isDigitChar c || c == '-' || c == '.' || isSpaceChar c ||
  c == '$' || c == '/' || c == '+' || c == '%'

/-- `MultiFormatBarcodeScanner.detect_format` (format-guess heuristic).
The second branch is the regex `^[A-Z0-9\-\.\s\$\/\+%]+$` (nonempty, all
characters in the class). -/
def detect_format (data : Str) : Str :=
  if data.length = 13 && isDigitStr data then str "EAN13"
  else if !data.isEmpty && data.all isCode39Char then
    (if data.length ≤ 43 then str "CODE39" else str "CODE128")
  else if isDigitStr data && data.length % 2 = 0 then str "ITF"
  else str "CODE128"

/-- The spec renames the format labels of the source; this is the
correspondence used throughout the spec (EAN13 is called checksummed-13,
CODE39 compact-alnum, CODE128 linear-128, ITF interleaved). -/
def spec_label (fmt : Str) : Str :=
  if fmt = str "EAN13" then str "checksummed-13"
  else if fmt = str "CODE39" then str "compact-alnum"
  else if fmt = str "CODE128" then str "linear-128"
  else if fmt = str "ITF" then str "interleaved"
  else fmt

/-- Python `min(a, b)` on two floats: the first argument on ties. -/
def pymin (a b : ℚ) : ℚ := if a ≤ b then a else b

/-- The `engine_weights` dict of `calculate_confidence`
(`engine_weights.get(engine, 0.1)`). -/
def engine_weight (engine : Str) : ℚ :=
  if engine = str "pyzbar" then 3/10
  else if engine = str "zxing" then 1/4
  else if engine = str "opencv" then 1/10
  else 1/10

/-- The `variant_weights` dict of `calculate_confidence`
(`variant_weights.get(variant, 0.05)`). -/
def variant_weight (variant : Str) : ℚ :=
  if variant = str "standard" then 1/5
  else if variant = str "high_contrast" then 3/20
  else if variant = str "edge_enhanced" then 1/10
  else 1/20

/-- Regex `^[A-Z0-9\s]+$` of the data-quality bonus. -/
def pat_quality (s : Str) : Bool :=
  !s.isEmpty && s.all fun c => isUpperChar c || isDigitChar c || isSpaceChar c

/-- `MultiFormatBarcodeScanner.calculate_confidence`:
`0.5 + engine weight + variant weight + provider bonus + quality bonus`,
capped by `min(base_score, 1.0)`. -/
def calculate_confidence (data : Str) (variant : Str) (engine : Str)
    (provider_hint : Option Str) : ℚ :=
  pymin
    (1/2 + engine_weight engine + variant_weight variant +
      (if truthy provider_hint &&
          validate_provider_pattern data (provider_hint.getD []) then 1/5 else 0) +
      (if isDigitStr data || pat_quality data then 1/10 else 0))
    1

/-- One preprocessed image variant (`{"name", "image", "description"}`),
over an opaque image type. -/
structure ImageVariant (α : Type) where
  name : Str
  image : α
  description : Str

/-- One decode engine of `MultiFormatBarcodeScanner.engines`: name,
supported format list, priority rank, and the decode capability.  A
`none` decode result models a raised exception, which the scan loop
catches and skips (the `except` around `engine["function"]`). -/
structure Engine (α : Type) where
  name : Str
  formats : List Str
  priority : Nat
  decode : α → Option Str → Option (List Str)

/-- A scored decode candidate (the dict appended to `all_results`), with
the spec field `sequence_index` (`seq`) in place of the source wall-clock
`timestamp`. -/
structure Cand where
  data : Str
  format : Str
  engine : Str
  variant : Str
  confidence : ℚ
  seq : Nat

/-- The work of one `(variant, engine)` iteration of
`scan_multiple_variants`: skip the engine when a truthy `format_hint` is
not among its formats; otherwise decode (an exception yields nothing) and
keep each validated result as a scored candidate. -/
def decode_attempt {α : Type} (e : Engine α) (v : ImageVariant α)
    (provider_hint format_hint : Option Str) : List Cand :=
  if truthy format_hint && !(e.formats.any fun f => f == format_hint.getD []) then []
  else
    match e.decode v.image format_hint with
    | none => []
    | some results =>
      (results.filter fun r => validate_result r provider_hint).map fun r =>
        { data := r, format := detect_format r, engine := e.name, variant := v.name,
          confidence := calculate_confidence r v.name e.name provider_hint, seq := 0 }

/-- Concatenating map, used for the nested variant/engine loops. -/
def flatMapL {α β : Type} (f : α → List β) : List α → List β
  | [] => []
  | x :: xs => f x ++ flatMapL f xs

/-- `all_results` of `scan_multiple_variants`: variant-major, engine-minor
iteration order. -/
def raw_results {α : Type} (engines : List (Engine α)) (variants : List (ImageVariant α))
    (provider_hint format_hint : Option Str) : List Cand :=
  flatMapL (fun v => flatMapL (fun e => decode_attempt e v provider_hint format_hint) engines)
    variants

/-- Attach the append position (`sequence_index`) to each candidate. -/
def withSeq : Nat → List Cand → List Cand
  | _, [] => []
  | i, c :: rest => { c with seq := i } :: withSeq (i + 1) rest

/-- Loop of `MultiFormatBarcodeScanner.remove_duplicates`: `seen` is the
set of data values already kept; the first occurrence of each data value
survives. -/
def removeDupGo (seen : List Str) : List Cand → List Cand
  | [] => []
  | c :: rest =>
    if c.data ∈ seen then removeDupGo seen rest
    else c :: removeDupGo (c.data :: seen) rest

/-- `MultiFormatBarcodeScanner.remove_duplicates`. -/
def remove_duplicates (results : List Cand) : List Cand := removeDupGo [] results

/-- `self.ml_model`: set to `None` in `__init__` and never reassigned. -/
def ml_model : Option Unit := none

/-- `MultiFormatBarcodeScanner.apply_ml_ranking`: returns the results
unchanged (reserved for a future model). -/
def apply_ml_ranking (results : List Cand) : List Cand := results

/-- Stable insertion for the final `sorted(..., key=confidence,
reverse=True)`: an element is placed before the first entry whose
confidence is not larger, so equal-confidence entries keep their relative
order (Python sorts are stable). -/
def insertCand (x : Cand) : List Cand → List Cand
  | [] => [x]
  | y :: rest =>
    if y.confidence ≤ x.confidence then x :: y :: rest
    else y :: insertCand x rest

/-- Stable sort, descending by confidence (model of Python `sorted` with
`reverse=True`). -/
def sortCands (l : List Cand) : List Cand := l.foldr insertCand []

/-- `MultiFormatBarcodeScanner.scan_multiple_variants`.  The ML branch
(`if enable_ml and len(unique_results) > 1 and self.ml_model`) is dead
because `ml_model` is `None`; it is modelled verbatim anyway. -/
def scan_multiple_variants {α : Type} (engines : List (Engine α))
    (variants : List (ImageVariant α)) (provider_hint format_hint : Option Str)
    (enable_ml : Bool) : List Cand :=
  let all := withSeq 0 (raw_results engines variants provider_hint format_hint)
  let unique := remove_duplicates all
  let unique :=
    if enable_ml && decide (1 < unique.length) && ml_model.isSome then
      apply_ml_ranking unique
    else unique
  sortCands unique

/-- A parsed field value (`ProviderParser.parse` dict values). -/
inductive FieldVal where
  | s : Str → FieldVal
  | n : Nat → FieldVal
  | b : Bool → FieldVal
  | l : List Str → FieldVal
deriving DecidableEq

/-- Lookup in an ordered association list (Python dict access). -/
def getField (m : List (Str × FieldVal)) (k : Str) : Option FieldVal :=
  (m.find? fun kv => kv.1 == k).map fun kv => kv.2

/-- The `PROVIDERS` table of `utils/constants.py`: ordered as in the
source dict (insertion order), each entry `(id, display name, patterns)`.
The pattern lists coincide with the inline dict of
`validate_provider_pattern`. -/
def PROVIDERS : List (Str × Str × List (Str → Bool)) :=
  [(str "seven_ticket", str "セブンチケット", [pat_seven_1, pat_seven_2]),
   (str "ticket_pia", str "チケットぴあ", [pat_pia_1, pat_pia_2]),
   (str "lawson_ticket", str "ローソンチケット", [pat_lawson_1, pat_lawson_2]),
   (str "eplus", str "イープラス", [pat_eplus]),
   (str "cnplayguide", str "CNプレイガイド", [pat_cn])]

/-- `ProviderParser.detect_provider`: empty data detects nothing; else the
first provider (in table order) one of whose patterns matches wins. -/
def detect_provider (barcode_data : Str) : Option Str :=
  if barcode_data = [] then none
  else (PROVIDERS.find? fun pr => pr.2.2.any fun p => p barcode_data).map fun pr => pr.1

/-- Python `data.split()` (split on whitespace runs, dropping empties). -/
def splitWs (s : Str) : List Str :=
  (s.foldr
    (fun c acc =>
      if isSpaceChar c then [] :: acc
      else match acc with
        | [] => [[c]]
        | w :: ws => (c :: w) :: ws)
    []).filter fun w => !w.isEmpty

/-- `ProviderParser.parse_seven_ticket`. -/
def parse_seven_ticket (data : Str) : List (Str × FieldVal) :=
  let base := [(str "provider", FieldVal.s (str "seven_ticket")),
               (str "provider_name", FieldVal.s (str "セブンチケット")),
               (str "raw_data", FieldVal.s data)]
  let parts := splitWs data
  if 3 ≤ parts.length then
    base ++ [(str "ticket_number", FieldVal.s (parts.getD 0 [])),
             (str "serial_number", FieldVal.s (parts.getD 1 [])),
             (str "check_digit", FieldVal.s (parts.getD 2 []))] ++
    (if (str "23").isPrefixOf (parts.getD 0 []) then
       [(str "store_code", FieldVal.s (parts.getD 0 [])),
        (str "ticket_id", FieldVal.s (parts.getD 1 []))]
     else
       [(str "ticket_id", FieldVal.s (parts.getD 0 [])),
        (str "serial_id", FieldVal.s (parts.getD 1 []))])
  else base

/-- `ProviderParser.parse_ticket_pia`. -/
def parse_ticket_pia (data : Str) : List (Str × FieldVal) :=
  let base := [(str "provider", FieldVal.s (str "ticket_pia")),
               (str "provider_name", FieldVal.s (str "チケットぴあ")),
               (str "raw_data", FieldVal.s data)]
  if (str "640032").isPrefixOf data then
    base ++ [(str "prefix", FieldVal.s (str "640032")),
             (str "ticket_number", FieldVal.s (data.drop 6))]
  else
    base ++ [(str "prefix", FieldVal.s (str "64")),
             (str "ticket_number", FieldVal.s (data.drop 2))]

/-- `ProviderParser.parse_lawson_ticket`. -/
def parse_lawson_ticket (data : Str) : List (Str × FieldVal) :=
  let base := [(str "provider", FieldVal.s (str "lawson_ticket")),
               (str "provider_name", FieldVal.s (str "ローソンチケット")),
               (str "raw_data", FieldVal.s data)]
  if (str "30").isPrefixOf data then
    base ++ [(str "prefix", FieldVal.s (str "30")),
             (str "ticket_number", FieldVal.s (data.drop 2))]
  else if (str "L").isPrefixOf data then
    base ++ [(str "prefix", FieldVal.s (str "L")),
             (str "ticket_number", FieldVal.s (data.drop 1))]
  else base

/-- `ProviderParser.parse_eplus`. -/
def parse_eplus (data : Str) : List (Str × FieldVal) :=
  [(str "provider", FieldVal.s (str "eplus")),
   (str "provider_name", FieldVal.s (str "イープラス")),
   (str "raw_data", FieldVal.s data),
   (str "prefix", FieldVal.s (str "EP")),
   (str "ticket_number", FieldVal.s (data.drop 2))]

/-- `ProviderParser.parse_cnplayguide`. -/
def parse_cnplayguide (data : Str) : List (Str × FieldVal) :=
  [(str "provider", FieldVal.s (str "cnplayguide")),
   (str "provider_name", FieldVal.s (str "CNプレイガイド")),
   (str "raw_data", FieldVal.s data),
   (str "prefix", FieldVal.s (str "CN")),
   (str "ticket_number", FieldVal.s (data.drop 2))]

/-- `ProviderParser.parse_generic`. -/
def parse_generic (data : Str) : List (Str × FieldVal) :=
  [(str "provider", FieldVal.s (str "unknown")),
   (str "provider_name", FieldVal.s (str "Unknown")),
   (str "raw_data", FieldVal.s data),
   (str "length", FieldVal.n data.length),
   (str "is_numeric", FieldVal.b (isDigitStr data)),
   (str "has_spaces", FieldVal.b (data.any fun c => c == ' ')),
   (str "has_letters", FieldVal.b (data.any isAlphaChar))] ++
  (if data.any (fun c => c == ' ') then
     [(str "parts", FieldVal.l (splitWs data)),
      (str "part_count", FieldVal.n (splitWs data).length)]
   else [])

/-- Dispatch of `getattr(self, "_parse_" + provider, None)`: the five
named extractors exist; any other provider id falls back to the generic
extractor. -/
def dispatch_parse (provider : Str) (data : Str) : List (Str × FieldVal) :=
  if provider = str "seven_ticket" then parse_seven_ticket data
  else if provider = str "ticket_pia" then parse_ticket_pia data
  else if provider = str "lawson_ticket" then parse_lawson_ticket data
  else if provider = str "eplus" then parse_eplus data
  else if provider = str "cnplayguide" then parse_cnplayguide data
  else parse_generic data

/-- `ProviderParser.parse`: empty data yields the empty dict; a falsy
provider argument (absent or empty) triggers auto-detection; an
undetected provider falls back to the generic extractor. -/
def parse (barcode_data : Str) (provider : Option Str) : List (Str × FieldVal) :=
  if barcode_data = [] then []
  else
    match (if truthy provider then provider.getD [] |> some
           else detect_provider barcode_data) with
    | none => parse_generic barcode_data
    | some p => dispatch_parse p barcode_data

/-- The PIL / OpenCV operations used by `ImageProcessor.create_variants`,
as opaque capabilities over an opaque PIL-image type `β` and cv2-array
type `γ`; a `none` result models a raised exception. -/
structure TransformOps (β γ : Type) where
  open_image : List Nat → Option β
  resize_image : β → Option β
  pil_to_cv2 : β → Option γ
  enhance_contrast : β → Option β
  enhance_edges : β → Option β
  reduce_noise : β → Option β
  reduce_blur : β → Option β
  convert_grayscale : β → Option β
  binarize_image : β → Option β

/-- The ordered enhancement transforms past the `standard` variant, with
their variant names and descriptions (order as in the source). -/
def enhancement_steps {β γ : Type} (ops : TransformOps β γ) :
    List ((β → Option β) × Str × Str) :=
  [(ops.enhance_contrast, str "high_contrast",
    str "Enhanced contrast for better barcode detection"),
   (ops.enhance_edges, str "edge_enhanced",
    str "Edge enhanced for pattern recognition"),
   (ops.reduce_noise, str "noise_reduced",
    str "Noise reduced for cleaner barcode lines"),
   (ops.reduce_blur, str "blur_reduced",
    str "Blur reduction for sharper barcode edges"),
   (ops.convert_grayscale, str "grayscale",
    str "Grayscale conversion for monochrome processing"),
   (ops.binarize_image, str "binary",
    str "Binary threshold for clear black/white separation")]

/-- Run the enhancement transforms in order inside the single `try` block:
the returned list holds the variants appended before the first failure,
and the flag records whether every step succeeded.  A failing transform
aborts the whole remaining sequence (the exception leaves the `try`). -/
def run_steps {β γ : Type} (ops : TransformOps β γ) (img : β) :
    List ((β → Option β) × Str × Str) → List (ImageVariant γ) × Bool
  | [] => ([], true)
  | (t, nm, ds) :: rest =>
    match t img with
    | none => ([], false)
    | some e =>
      match ops.pil_to_cv2 e with
      | none => ([], false)
      | some m =>
        let r := run_steps ops img rest
        (⟨nm, m, ds⟩ :: r.1, r.2)

/-- The `except` branch of `create_variants`: reopen, resize and convert
the original image; its own inner `except: pass` swallows a second
failure, yielding nothing. -/
def fallback_standard {β γ : Type} (ops : TransformOps β γ) (image_data : List Nat) :
    List (ImageVariant γ) :=
  match ops.open_image image_data with
  | none => []
  | some img0 =>
    match ops.resize_image img0 with
    | none => []
    | some img =>
      match ops.pil_to_cv2 img with
      | none => []
      | some m => [⟨str "standard", m, str "Original image (fallback)"⟩]

/-- `ImageProcessor.create_variants`.  The variants list is built inside
one `try`; on any exception the `except` branch appends a fallback
`standard` variant to the list built so far (the source never clears
`variants` before the fallback append). -/
def create_variants {β γ : Type} (ops : TransformOps β γ) (image_data : List Nat) :
    List (ImageVariant γ) :=
  match ops.open_image image_data with
  | none => fallback_standard ops image_data
  | some img0 =>
    match ops.resize_image img0 with
    | none => fallback_standard ops image_data
    | some img =>
      match ops.pil_to_cv2 img with
      | none => fallback_standard ops image_data
      | some m0 =>
        let standard : ImageVariant γ :=
          ⟨str "standard", m0, str "Original image with basic preprocessing"⟩
        let r := run_steps ops img (enhancement_steps ops)
        if r.2 then standard :: r.1
        else (standard :: r.1) ++ fallback_standard ops image_data

/-- The scan-handler decision around `create_variants` and
`scan_multiple_variants` (`handlers/scan.py`): an empty candidate list is
surfaced to the caller as the 404 error response. -/
def scan_request_outcome {β γ : Type} (ops : TransformOps β γ)
    (engines : List (Engine γ)) (image_data : List Nat)
    (provider_hint format_hint : Option Str) (enable_ml : Bool) :
    Except (Nat × Str) (List Cand) :=
  let variants := create_variants ops image_data
  let results := scan_multiple_variants engines variants provider_hint format_hint enable_ml
  if results.isEmpty then Except.error (404, str "No barcode detected")
  else Except.ok results

/-- Strict ordering obeyed by the output of the stable descending sort
when the input seq indices are strictly increasing. -/
def candT (a b : Cand) : Prop :=
  b.confidence < a.confidence ∨ (a.confidence = b.confidence ∧ a.seq < b.seq)

/-- The four generic structural patterns, restated in the words of the
spec (pure digits of length 6-20; two uppercase letters followed by 8-15
digits; two or three digits, one whitespace, 3-15 digits;
uppercase-alphanumeric-with-hyphen of length 6-25). -/
def spec_generic_patterns (s : Str) : Prop :=
  (6 ≤ s.length ∧ s.length ≤ 20 ∧ ∀ c ∈ s, isDigitChar c = true) ∨
  (∃ u v, s = u ++ v ∧ u.length = 2 ∧ (∀ c ∈ u, isUpperChar c = true) ∧
    8 ≤ v.length ∧ v.length ≤ 15 ∧ ∀ c ∈ v, isDigitChar c = true) ∨
  (∃ a c b, s = a ++ c :: b ∧ (a.length = 2 ∨ a.length = 3) ∧
    (∀ x ∈ a, isDigitChar x = true) ∧ isSpaceChar c = true ∧
    3 ≤ b.length ∧ b.length ≤ 15 ∧ ∀ x ∈ b, isDigitChar x = true) ∨
  (6 ≤ s.length ∧ s.length ≤ 25 ∧ ∀ c ∈ s, isUpperDigitHyphen c = true)

/-- Validation as worded by the spec, hint absent: length at least 3,
every character printable, and at least one generic pattern matches. -/
def spec_valid_generic (data : Str) : Prop :=
  3 ≤ data.length ∧ (∀ c ∈ data, isPrintableChar c = true) ∧ spec_generic_patterns data

/-- Validation as worded by the spec, hint given: length at least 3,
every character printable, and at least one pattern registered for the
hinted provider matches. -/
def spec_valid_provider (data h : Str) : Prop :=
  3 ≤ data.length ∧ (∀ c ∈ data, isPrintableChar c = true) ∧
  ∃ p ∈ provider_patterns h, p data = true

/-- The format-guess heuristic restated in the words of the spec, with
the spec format labels and the stated branch order. -/
def detect_format_spec (data : Str) : Str :=
  if data.length = 13 ∧ ∀ c ∈ data, isDigitChar c = true then str "checksummed-13"
  else if data ≠ [] ∧ ∀ c ∈ data, isCode39Char c = true then
    (if data.length ≤ 43 then str "compact-alnum" else str "linear-128")
  else if (data ≠ [] ∧ ∀ c ∈ data, isDigitChar c = true) ∧ data.length % 2 = 0 then
    str "interleaved"
  else str "linear-128"

/-- Example engine over a trivial image type: always decodes one valid
numeric payload. -/
def exEngine : Engine Unit :=
  { name := str "pyzbar", formats := [str "CODE128"], priority := 1,
    decode := fun _ _ => some [str "123456"] }

/-- Example variant list element. -/
def exVariant : ImageVariant Unit := ⟨str "standard", (), str "example"⟩

/-- The candidate that `scan_multiple_variants [exEngine] [exVariant]`
produces. -/
def exCand : Cand :=
  { data := str "123456", format := detect_format (str "123456"),
    engine := str "pyzbar", variant := str "standard",
    confidence := calculate_confidence (str "123456") (str "standard") (str "pyzbar") none,
    seq := 0 }

/-- Two candidates carrying the same data value, in generation order. -/
def exDupA : Cand :=
  ⟨str "640032123", str "CODE39", str "pyzbar", str "standard", 1, 0⟩

/-- Two candidates carrying the same data value, in generation order. -/
def exDupB : Cand :=
  ⟨str "640032123", str "CODE39", str "opencv", str "binary", 1/2, 1⟩

/-- Transform ops on which the base image decodes but every enhancement
transform raises. -/
def exFailOps : TransformOps Unit Unit :=
  { open_image := fun _ => some (), resize_image := fun i => some i,
    pil_to_cv2 := fun _ => some (), enhance_contrast := fun _ => none,
    enhance_edges := fun _ => none, reduce_noise := fun _ => none,
    reduce_blur := fun _ => none, convert_grayscale := fun _ => none,
    binarize_image := fun _ => none }

/-- Transform ops on which the byte buffer is not decodable as an image
at all. -/
def exBadOps : TransformOps Unit Unit :=
  { open_image := fun _ => none, resize_image := fun i => some i,
    pil_to_cv2 := fun _ => some (), enhance_contrast := fun _ => some (),
    enhance_edges := fun _ => some (), reduce_noise := fun _ => some (),
    reduce_blur := fun _ => some (), convert_grayscale := fun _ => some (),
    binarize_image := fun _ => some () }

theorem matchSeq_nil_iff (s : Str) : matchSeq [] s = true ↔ s = [] := by
  simp [matchSeq, List.isEmpty_iff]

theorem matchSeq_cons_iff (lo hi : Nat) (cl : Char → Bool) (ps : List PatItem) (s : Str) :
    matchSeq ((lo, hi, cl) :: ps) s = true ↔
      ∃ u v, s = u ++ v ∧ lo ≤ u.length ∧ u.length ≤ hi ∧ u.all cl = true ∧
        matchSeq ps v = true := by
  constructor
  · intro h
    simp only [matchSeq, List.any_eq_true, List.mem_range, Bool.and_eq_true,
      decide_eq_true_eq] at h
    obtain ⟨k, hk, ⟨⟨hlo, hklen⟩, hall⟩, hrest⟩ := h
    refine ⟨s.take k, s.drop k, (List.take_append_drop k s).symm, ?_, ?_, hall, hrest⟩
    · simpa [List.length_take, Nat.min_eq_left hklen] using hlo
    · have : (s.take k).length = k := by simp [List.length_take, Nat.min_eq_left hklen]
      omega
  · rintro ⟨u, v, rfl, hlo, hhi, hall, hrest⟩
    simp only [matchSeq, List.any_eq_true, List.mem_range, Bool.and_eq_true,
      decide_eq_true_eq]
    refine ⟨u.length, by omega, ⟨⟨hlo, by simp⟩, ?_⟩, ?_⟩
    · simpa [List.take_left] using hall
    · simpa [List.drop_left] using hrest

theorem candT_conf_le {a b : Cand} (h : candT a b) : b.confidence ≤ a.confidence := by
  rcases h with h | ⟨h, _⟩
  · exact le_of_lt h
  · exact le_of_eq h.symm

theorem mem_insertCand (x a : Cand) (l : List Cand) :
    a ∈ insertCand x l ↔ a = x ∨ a ∈ l := by
  induction l with
  | nil => simp [insertCand]
  | cons y rest ih =>
    by_cases h : y.confidence ≤ x.confidence
    · simp [insertCand, h]
    · simp only [insertCand, if_neg h, List.mem_cons, ih]
      tauto

theorem mem_sortCands (a : Cand) (l : List Cand) : a ∈ sortCands l ↔ a ∈ l := by
  induction l with
  | nil => simp [sortCands]
  | cons x rest ih =>
    show a ∈ insertCand x (sortCands rest) ↔ _
    rw [mem_insertCand]
    simp [ih]

theorem insertCand_pairwise (x : Cand) (l : List Cand) (hl : l.Pairwise candT)
    (hx : ∀ y ∈ l, x.seq < y.seq) : (insertCand x l).Pairwise candT := by
  induction l with
  | nil => simp [insertCand]
  | cons y rest ih =>
    rcases hl with _ | ⟨hy, hrest⟩
    by_cases h : y.confidence ≤ x.confidence
    · rw [insertCand, if_pos h]
      refine List.Pairwise.cons ?_ (List.Pairwise.cons hy hrest)
      intro z hz
      have hzconf : z.confidence ≤ y.confidence := by
        rcases List.mem_cons.mp hz with rfl | hz'
        · exact le_rfl
        · exact candT_conf_le (hy z hz')
      rcases lt_or_eq_of_le (le_trans hzconf h) with hlt | heq
      · exact Or.inl hlt
      · exact Or.inr ⟨heq.symm, hx z hz⟩
    · rw [insertCand, if_neg h]
      refine List.Pairwise.cons ?_ (ih hrest fun z hz => hx z (List.mem_cons_of_mem y hz))
      intro z hz
      rw [mem_insertCand] at hz
      rcases hz with rfl | hz
      · exact Or.inl (lt_of_not_le h)
      · exact hy z hz

theorem sortCands_pairwise (l : List Cand)
    (hl : l.Pairwise fun a b => a.seq < b.seq) : (sortCands l).Pairwise candT := by
  induction l with
  | nil => simp [sortCands]
  | cons x rest ih =>
    rcases hl with _ | ⟨hx, hrest⟩
    show (insertCand x (sortCands rest)).Pairwise candT
    refine insertCand_pairwise x (sortCands rest) (ih hrest) ?_
    intro y hy
    exact hx y ((mem_sortCands y rest).mp hy)

theorem removeDupGo_sublist (seen : List Str) (l : List Cand) :
    (removeDupGo seen l).Sublist l := by
  induction l generalizing seen with
  | nil => simp [removeDupGo]
  | cons c rest ih =>
    rw [removeDupGo]
    by_cases h : c.data ∈ seen
    · rw [if_pos h]
      exact (ih seen).cons c
    · rw [if_neg h]
      exact (ih (c.data :: seen)).cons₂ c

theorem mem_removeDupGo {seen : List Str} {l : List Cand} {c : Cand}
    (h : c ∈ removeDupGo seen l) : c ∈ l :=
  (removeDupGo_sublist seen l).mem h

theorem filter_removeDupGo (seen : List Str) (l : List Cand) (d : Str) :
    (removeDupGo seen l).filter (fun c => decide (c.data = d)) =
      if d ∈ seen then [] else (l.filter fun c => decide (c.data = d)).take 1 := by
  induction l generalizing seen with
  | nil => simp [removeDupGo]
  | cons c rest ih =>
    rw [removeDupGo]
    by_cases hc : c.data ∈ seen
    · rw [if_pos hc, ih seen]
      by_cases hd : d ∈ seen
      · simp [hd]
      · have hne : ¬(c.data = d) := fun h => hd (h ▸ hc)
        simp [hd, List.filter_cons, hne]
    · rw [if_neg hc]
      by_cases hcd : c.data = d
      · subst hcd
        rw [List.filter_cons_of_pos (by simp), ih (c.data :: seen),
          List.filter_cons_of_pos (by simp)]
        simp [hc]
      · rw [List.filter_cons_of_neg (by simpa using hcd), ih (c.data :: seen),
          List.filter_cons_of_neg (by simpa using hcd)]
        have hmem : (d ∈ c.data :: seen) ↔ d ∈ seen := by
          simp only [List.mem_cons]
          constructor
          · rintro (rfl | h)
            · exact absurd rfl hcd
            · exact h
          · exact Or.inr
        simp only [hmem]

theorem filter_remove_duplicates (l : List Cand) (d : Str) :
    (remove_duplicates l).filter (fun c => decide (c.data = d)) =
      (l.filter fun c => decide (c.data = d)).take 1 := by
  rw [remove_duplicates, filter_removeDupGo]
  simp

theorem filter_head_seq_le (l : List Cand) (p : Cand → Bool)
    (hl : l.Pairwise fun a b => a.seq < b.seq) (c : Cand) (t : List Cand)
    (hf : l.filter p = c :: t) :
    ∀ c' ∈ l, p c' = true → c.seq ≤ c'.seq := by
  induction l with
  | nil => simp at hf
  | cons x rest ih =>
    rcases hl with _ | ⟨hx, hrest⟩
    intro c' hc' hp
    by_cases hpx : p x = true
    · rw [List.filter_cons_of_pos hpx] at hf
      have hcx : c = x := (List.cons.injEq _ _ _ _ ▸ hf).1.symm
      subst hcx
      rcases List.mem_cons.mp hc' with rfl | hc''
      · exact le_rfl
      · exact le_of_lt (hx c' hc'')
    · rw [List.filter_cons_of_neg (by simpa using hpx)] at hf
      rcases List.mem_cons.mp hc' with rfl | hc''
      · exact absurd hp hpx
      · exact ih hrest hf c' hc'' hp

theorem remove_duplicates_min_seq (l : List Cand)
    (hl : l.Pairwise fun a b => a.seq < b.seq) :
    ∀ c ∈ remove_duplicates l, ∀ c' ∈ l, c.data = c'.data → c.seq ≤ c'.seq := by
  intro c hc c' hc' hdata
  have hcf : c ∈ (remove_duplicates l).filter (fun x => decide (x.data = c.data)) :=
    List.mem_filter.mpr ⟨hc, by simp⟩
  rw [filter_remove_duplicates] at hcf
  rcases hfl : l.filter (fun x => decide (x.data = c.data)) with _ | ⟨e, t⟩
  · rw [hfl, List.take_nil] at hcf
    exact absurd hcf (List.not_mem_nil c)
  · rw [hfl] at hcf
    have ht : List.take 1 (e :: t) = [e] := rfl
    rw [ht, List.mem_singleton] at hcf
    subst hcf
    exact filter_head_seq_le l _ hl c t hfl c' hc' (by simp [hdata])

theorem withSeq_seq_ge (l : List Cand) (i : Nat) :
    ∀ c ∈ withSeq i l, i ≤ c.seq := by
  induction l generalizing i with
  | nil => simp [withSeq]
  | cons x rest ih =>
    intro c hc
    rcases List.mem_cons.mp hc with rfl | hc'
    · exact le_rfl
    · exact le_trans (Nat.le_succ i) (ih (i + 1) c hc')

theorem withSeq_pairwise (l : List Cand) (i : Nat) :
    (withSeq i l).Pairwise fun a b => a.seq < b.seq := by
  induction l generalizing i with
  | nil => exact List.Pairwise.nil
  | cons x rest ih =>
    refine List.Pairwise.cons ?_ (ih (i + 1))
    intro b hb
    exact lt_of_lt_of_le (Nat.lt_succ_self i) (withSeq_seq_ge rest (i + 1) b hb)

theorem mem_withSeq_confidence (l : List Cand) (i : Nat) :
    ∀ c ∈ withSeq i l, ∃ c₀ ∈ l, c.confidence = c₀.confidence := by
  induction l generalizing i with
  | nil => simp [withSeq]
  | cons x rest ih =>
    intro c hc
    rcases List.mem_cons.mp hc with rfl | hc'
    · exact ⟨x, List.mem_cons_self x rest, rfl⟩
    · obtain ⟨c₀, hc₀, he⟩ := ih (i + 1) c hc'
      exact ⟨c₀, List.mem_cons_of_mem x hc₀, he⟩

theorem mem_flatMapL {α β : Type} (f : α → List β) (l : List α) (b : β) :
    b ∈ flatMapL f l ↔ ∃ a ∈ l, b ∈ f a := by
  induction l with
  | nil => simp [flatMapL]
  | cons x xs ih => simp [flatMapL, List.mem_append, ih]

theorem mem_decode_attempt_confidence {α : Type} (e : Engine α) (v : ImageVariant α)
    (ph fh : Option Str) (c : Cand) (hc : c ∈ decode_attempt e v ph fh) :
    ∃ r, c.confidence = calculate_confidence r v.name e.name ph := by
  rw [decode_attempt] at hc
  split at hc
  · simp at hc
  · rcases hd : e.decode v.image fh with _ | results
    · rw [hd] at hc; simp at hc
    · rw [hd] at hc
      obtain ⟨r, _, he⟩ := List.mem_map.mp hc
      exact ⟨r, by rw [← he]⟩

theorem mem_raw_results_confidence {α : Type} (engines : List (Engine α))
    (variants : List (ImageVariant α)) (ph fh : Option Str) (c : Cand)
    (hc : c ∈ raw_results engines variants ph fh) :
    ∃ r vn en, c.confidence = calculate_confidence r vn en ph := by
  rw [raw_results, mem_flatMapL] at hc
  obtain ⟨v, _, hc⟩ := hc
  rw [mem_flatMapL] at hc
  obtain ⟨e, _, hc⟩ := hc
  obtain ⟨r, hr⟩ := mem_decode_attempt_confidence e v ph fh c hc
  exact ⟨r, v.name, e.name, hr⟩

theorem engine_weight_nonneg (e : Str) : 0 ≤ engine_weight e := by
  rw [engine_weight]
  split_ifs <;> norm_num

theorem variant_weight_nonneg (v : Str) : 0 ≤ variant_weight v := by
  rw [variant_weight]
  split_ifs <;> norm_num

theorem calculate_confidence_nonneg (data variant engine : Str) (ph : Option Str) :
    0 ≤ calculate_confidence data variant engine ph := by
  have h1 := engine_weight_nonneg engine
  have h2 := variant_weight_nonneg variant
  rw [calculate_confidence, pymin]
  split_ifs <;> linarith

theorem calculate_confidence_le_one (data variant engine : Str) (ph : Option Str) :
    calculate_confidence data variant engine ph ≤ 1 := by
  rw [calculate_confidence, pymin]
  split_ifs <;> linarith

theorem scan_eq_pipeline {α : Type} (engines : List (Engine α))
    (variants : List (ImageVariant α)) (ph fh : Option Str) (em : Bool) :
    scan_multiple_variants engines variants ph fh em =
      sortCands (remove_duplicates (withSeq 0 (raw_results engines variants ph fh))) := by
  rw [scan_multiple_variants]
  simp [ml_model]

theorem flatMapL_eq_nil {α β : Type} (f : α → List β) (l : List α)
    (h : ∀ a ∈ l, f a = []) : flatMapL f l = [] := by
  induction l with
  | nil => rfl
  | cons x xs ih =>
    rw [flatMapL, h x (List.mem_cons_self x xs), List.nil_append]
    exact ih fun a ha => h a (List.mem_cons_of_mem x ha)

theorem matchSeq_nil_iff' (s : Str) : matchSeq [] s = true ↔ s = [] := by
  simp [matchSeq, List.isEmpty_iff]

theorem pat_digits_6_20_iff (s : Str) :
    pat_digits_6_20 s = true ↔
      6 ≤ s.length ∧ s.length ≤ 20 ∧ ∀ c ∈ s, isDigitChar c = true := by
  rw [pat_digits_6_20, cls, matchSeq_cons_iff]
  constructor
  · rintro ⟨u, v, rfl, hlo, hhi, hall, hnil⟩
    rw [matchSeq_nil_iff'] at hnil
    subst hnil
    rw [List.append_nil]
    exact ⟨hlo, hhi, List.all_eq_true.mp hall⟩
  · rintro ⟨h1, h2, h3⟩
    exact ⟨s, [], (List.append_nil s).symm, h1, h2, List.all_eq_true.mpr h3, by
      rw [matchSeq_nil_iff']⟩

theorem pat_upper_hyphen_iff (s : Str) :
    pat_upper_hyphen s = true ↔
      6 ≤ s.length ∧ s.length ≤ 25 ∧ ∀ c ∈ s, isUpperDigitHyphen c = true := by
  rw [pat_upper_hyphen, cls, matchSeq_cons_iff]
  constructor
  · rintro ⟨u, v, rfl, hlo, hhi, hall, hnil⟩
    rw [matchSeq_nil_iff'] at hnil
    subst hnil
    rw [List.append_nil]
    exact ⟨hlo, hhi, List.all_eq_true.mp hall⟩
  · rintro ⟨h1, h2, h3⟩
    exact ⟨s, [], (List.append_nil s).symm, h1, h2, List.all_eq_true.mpr h3, by
      rw [matchSeq_nil_iff']⟩

theorem pat_upper2_digits_iff (s : Str) :
    pat_upper2_digits s = true ↔
      ∃ u v, s = u ++ v ∧ u.length = 2 ∧ (∀ c ∈ u, isUpperChar c = true) ∧
        8 ≤ v.length ∧ v.length ≤ 15 ∧ ∀ c ∈ v, isDigitChar c = true := by
  rw [pat_upper2_digits, cls, matchSeq_cons_iff]
  constructor
  · rintro ⟨u, v, rfl, hlo, hhi, hall, hrest⟩
    rw [cls, matchSeq_cons_iff] at hrest
    obtain ⟨u2, v2, rfl, h8, h15, hall2, hnil⟩ := hrest
    rw [matchSeq_nil_iff'] at hnil
    subst hnil
    rw [List.append_nil]
    exact ⟨u, u2, rfl, by omega, List.all_eq_true.mp hall, h8, h15,
      List.all_eq_true.mp hall2⟩
  · rintro ⟨u, v, rfl, h2, hup, h8, h15, hdig⟩
    refine ⟨u, v, rfl, by omega, by omega, List.all_eq_true.mpr hup, ?_⟩
    rw [cls, matchSeq_cons_iff]
    exact ⟨v, [], (List.append_nil v).symm, h8, h15, List.all_eq_true.mpr hdig, by
      rw [matchSeq_nil_iff']⟩

theorem pat_digits_space_digits_iff (s : Str) :
    pat_digits_space_digits s = true ↔
      ∃ a c b, s = a ++ c :: b ∧ (a.length = 2 ∨ a.length = 3) ∧
        (∀ x ∈ a, isDigitChar x = true) ∧ isSpaceChar c = true ∧
        3 ≤ b.length ∧ b.length ≤ 15 ∧ ∀ x ∈ b, isDigitChar x = true := by
  rw [pat_digits_space_digits, cls, matchSeq_cons_iff]
  constructor
  · rintro ⟨u, v, rfl, hlo, hhi, hall, hrest⟩
    rw [cls, matchSeq_cons_iff] at hrest
    obtain ⟨w, v2, rfl, hw1, hw1', hwall, hrest2⟩ := hrest
    rw [cls, matchSeq_cons_iff] at hrest2
    obtain ⟨b, v3, rfl, h3b, h15b, hball, hnil⟩ := hrest2
    rw [matchSeq_nil_iff'] at hnil
    subst hnil
    obtain ⟨c, rfl⟩ : ∃ c, w = [c] := List.length_eq_one.mp (by omega)
    rw [List.append_nil]
    refine ⟨u, c, b, by simp, by omega, List.all_eq_true.mp hall, ?_, h3b, h15b,
      List.all_eq_true.mp hball⟩
    have := List.all_eq_true.mp hwall c (List.mem_singleton_self c)
    exact this
  · rintro ⟨a, c, b, rfl, hlen, hadig, hsp, h3b, h15b, hbdig⟩
    refine ⟨a, c :: b, rfl, by omega, by omega, List.all_eq_true.mpr hadig, ?_⟩
    rw [cls, matchSeq_cons_iff]
    refine ⟨[c], b, rfl, by simp, by simp, by simp [hsp], ?_⟩
    rw [cls, matchSeq_cons_iff]
    exact ⟨b, [], (List.append_nil b).symm, h3b, h15b, List.all_eq_true.mpr hbdig, by
      rw [matchSeq_nil_iff']⟩

theorem generic_any_iff (data : Str) :
    (generic_patterns.any fun p => p data) = true ↔ spec_generic_patterns data := by
  rw [generic_patterns, spec_generic_patterns]
  simp only [List.any_cons, List.any_nil, Bool.or_eq_true, Bool.false_eq_true, or_false]
  exact or_congr (pat_digits_6_20_iff data) (or_congr (pat_upper2_digits_iff data)
    (or_congr (pat_digits_space_digits_iff data) (pat_upper_hyphen_iff data)))

theorem validate_result_generic_iff (data : Str) (ph : Option Str)
    (hph : truthy ph = false) :
    validate_result data ph = true ↔ spec_valid_generic data := by
  rw [validate_result, hph, spec_valid_generic]
  by_cases h3 : data.length < 3
  · rw [if_pos h3]
    constructor
    · intro h; cases h
    · rintro ⟨hlen, -, -⟩; omega
  · rw [if_neg h3]
    by_cases hpr : isPrintableStr data = true
    · rw [hpr]
      rw [if_neg (by simp)]
      rw [if_neg (by simp)]
      rw [generic_any_iff]
      have hlen : 3 ≤ data.length := by omega
      have hprl : ∀ c ∈ data, isPrintableChar c = true :=
        List.all_eq_true.mp (by rw [← isPrintableStr]; exact hpr)
      constructor
      · intro h; exact ⟨hlen, hprl, h⟩
      · rintro ⟨-, -, h⟩; exact h
    · have hpr' : isPrintableStr data = false := by
        cases hb : isPrintableStr data with
        | false => rfl
        | true => exact absurd hb hpr
      rw [hpr', if_pos (by simp)]
      constructor
      · intro h; cases h
      · rintro ⟨-, hall, -⟩
        rw [← List.all_eq_true] at hall
        rw [isPrintableStr] at hpr'
        rw [hall] at hpr'
        cases hpr'

theorem validate_result_provider_iff (data h : Str) (hne : h ≠ []) :
    validate_result data (some h) = true ↔ spec_valid_provider data h := by
  have htr : truthy (some h) = true := by
    cases h with
    | nil => exact absurd rfl hne
    | cons a t => rfl
  rw [validate_result, htr, spec_valid_provider]
  by_cases h3 : data.length < 3
  · rw [if_pos h3]
    constructor
    · intro hx; cases hx
    · rintro ⟨hlen, -, -⟩; omega
  · rw [if_neg h3]
    by_cases hpr : isPrintableStr data = true
    · rw [hpr]
      rw [if_neg (by simp)]
      rw [if_pos rfl]
      rw [validate_provider_pattern, Option.getD_some, List.any_eq_true]
      have hlen : 3 ≤ data.length := by omega
      have hprl : ∀ c ∈ data, isPrintableChar c = true :=
        List.all_eq_true.mp (by rw [← isPrintableStr]; exact hpr)
      constructor
      · intro hx; exact ⟨hlen, hprl, hx⟩
      · rintro ⟨-, -, hx⟩; exact hx
    · have hpr' : isPrintableStr data = false := by
        cases hb : isPrintableStr data with
        | false => rfl
        | true => exact absurd hb hpr
      rw [hpr', if_pos (by simp)]
      constructor
      · intro hx; cases hx
      · rintro ⟨-, hall, -⟩
        rw [← List.all_eq_true] at hall
        rw [isPrintableStr] at hpr'
        rw [hall] at hpr'
        cases hpr'

/-- C1: for every candidate produced by `scan_multiple_variants`, for any
variants list, engine set and hints, the confidence computed by
`calculate_confidence` lies in the interval [0, 1]. -/
theorem claim_C1_confidence_bounds {α : Type} (engines : List (Engine α))
    (variants : List (ImageVariant α)) (ph fh : Option Str) (em : Bool)
    (c : Cand) (hc : c ∈ scan_multiple_variants engines variants ph fh em) :
    0 ≤ c.confidence ∧ c.confidence ≤ 1 := by
  rw [scan_eq_pipeline] at hc
  have hc1 := (mem_sortCands c _).mp hc
  have hc2 := mem_removeDupGo hc1
  obtain ⟨c₀, hc₀, he⟩ := mem_withSeq_confidence _ 0 c hc2
  obtain ⟨r, vn, en, hr⟩ := mem_raw_results_confidence engines variants ph fh c₀ hc₀
  rw [he, hr]
  exact ⟨calculate_confidence_nonneg r vn en ph, calculate_confidence_le_one r vn en ph⟩

/-- Witness for C1: a concrete scan run produces a candidate, and its
confidence is within bounds. -/
theorem claim_C1_confidence_bounds_witness :
    0 ≤ exCand.confidence ∧ exCand.confidence ≤ 1 :=
  claim_C1_confidence_bounds [exEngine] [exVariant] none none true exCand
    (List.mem_cons_self exCand [])

/-- C2: the candidate list returned by `scan_multiple_variants` is sorted
non-increasing by confidence, and candidates of equal confidence keep
their generation order (`sequence_index` non-decreasing). -/
theorem claim_C2_ranking_stable {α : Type} (engines : List (Engine α))
    (variants : List (ImageVariant α)) (ph fh : Option Str) (em : Bool) :
    (scan_multiple_variants engines variants ph fh em).Pairwise fun a b =>
      b.confidence ≤ a.confidence ∧ (a.confidence = b.confidence → a.seq ≤ b.seq) := by
  rw [scan_eq_pipeline]
  have hp : (remove_duplicates
      (withSeq 0 (raw_results engines variants ph fh))).Pairwise
        fun a b => a.seq < b.seq :=
    (withSeq_pairwise _ 0).sublist (removeDupGo_sublist [] _)
  refine (sortCands_pairwise _ hp).imp ?_
  intro a b hab
  rcases hab with h | ⟨h1, h2⟩
  · refine ⟨le_of_lt h, fun he => ?_⟩
    rw [he] at h
    exact absurd h (lt_irrefl _)
  · exact ⟨le_of_eq h1.symm, fun _ => le_of_lt h2⟩

/-- Witness for C2: the ranking property at a concrete scan run. -/
theorem claim_C2_ranking_stable_witness :
    (scan_multiple_variants [exEngine] [exVariant] none none true).Pairwise fun a b =>
      b.confidence ≤ a.confidence ∧ (a.confidence = b.confidence → a.seq ≤ b.seq) :=
  claim_C2_ranking_stable [exEngine] [exVariant] none none true

/-- C3: on any candidate list whose `sequence_index` values increase in
generation order, deduplication keeps, for each data value, exactly the
first occurrence (the filter of the output is the one-element truncation
of the filter of the input), and every survivor has the smallest
`sequence_index` among the candidates sharing its data value. -/
theorem claim_C3_dedup_keeps_earliest (l : List Cand) (d : Str)
    (hl : l.Pairwise fun a b => a.seq < b.seq) :
    (remove_duplicates l).filter (fun c => decide (c.data = d)) =
      (l.filter fun c => decide (c.data = d)).take 1 ∧
    ∀ c ∈ remove_duplicates l, ∀ c' ∈ l, c.data = c'.data → c.seq ≤ c'.seq :=
  ⟨filter_remove_duplicates l d, remove_duplicates_min_seq l hl⟩

/-- Witness for C3: two equal-data candidates; the earlier survives. -/
theorem claim_C3_dedup_keeps_earliest_witness :
    (remove_duplicates [exDupA, exDupB]).filter
        (fun c => decide (c.data = str "640032123")) =
      ([exDupA, exDupB].filter fun c => decide (c.data = str "640032123")).take 1 ∧
    ∀ c ∈ remove_duplicates [exDupA, exDupB], ∀ c' ∈ [exDupA, exDupB],
      c.data = c'.data → c.seq ≤ c'.seq :=
  claim_C3_dedup_keeps_earliest [exDupA, exDupB] (str "640032123") (by decide)

/-- C4: on a valid base image where every enhancement transform raises,
`create_variants` does NOT return exactly one `standard` variant: the
`except` branch appends its fallback `standard` to the list that already
holds the `standard` variant built before the failure, so the result has
two variants, both named `standard` (and the failing transform also
aborts every later transform instead of being skipped in isolation). -/
theorem claim_C4_hostile_image_two_standards :
    (create_variants exFailOps []).map (fun v => v.name) =
      [str "standard", str "standard"] := by decide

/-- C5: on a byte buffer that cannot be decoded as an image,
`create_variants` produces no variants, and the request fails with the
error response surfaced to the caller. -/
theorem claim_C5_undecodable_bytes {β γ : Type} (ops : TransformOps β γ)
    (engines : List (Engine γ)) (image_data : List Nat) (ph fh : Option Str)
    (em : Bool) (h : ops.open_image image_data = none) :
    create_variants ops image_data = [] ∧
    scan_request_outcome ops engines image_data ph fh em =
      Except.error (404, str "No barcode detected") := by
  have h1 : create_variants ops image_data = [] := by
    rw [create_variants, h, fallback_standard, h]
  have h2 : scan_multiple_variants engines ([] : List (ImageVariant γ)) ph fh em = [] := by
    rw [scan_eq_pipeline]
    rfl
  refine ⟨h1, ?_⟩
  rw [scan_request_outcome]
  rw [h1, h2]
  rfl

/-- Witness for C5: concrete undecodable bytes. -/
theorem claim_C5_undecodable_bytes_witness :
    create_variants exBadOps [] = [] ∧
    scan_request_outcome exBadOps [exEngine] [] none none true =
      Except.error (404, str "No barcode detected") :=
  claim_C5_undecodable_bytes exBadOps [exEngine] [] none none true rfl

/-- C6: with no (truthy) provider hint, a raw decode string validates
exactly when it has length at least 3, is printable, and matches one of
the four generic patterns; with a nonempty provider hint, exactly when it
has length at least 3, is printable, and matches a pattern registered for
that provider.  An empty-string hint is falsy in the source and behaves
as an absent hint. -/
theorem claim_C6_validation_iff (data : Str) :
    (validate_result data none = true ↔ spec_valid_generic data) ∧
    (validate_result data (some []) = true ↔ spec_valid_generic data) ∧
    ∀ h : Str, h ≠ [] →
      (validate_result data (some h) = true ↔ spec_valid_provider data h) :=
  ⟨validate_result_generic_iff data none rfl,
   validate_result_generic_iff data (some []) rfl,
   fun h hh => validate_result_provider_iff data h hh⟩

/-- Witness for C6: the provider-hint equivalence at a concrete payload
and hint. -/
theorem claim_C6_validation_iff_witness :
    validate_result (str "EP1234567890") (some (str "eplus")) = true ↔
      spec_valid_provider (str "EP1234567890") (str "eplus") :=
  (claim_C6_validation_iff (str "EP1234567890")).2.2 (str "eplus") (by decide)

/-- C7: `detect_provider` on "6412345678901" yields ticket_pia, `parse`
on the same value extracts prefix "64" and ticket number "12345678901",
and in general the ticket_pia extractor takes prefix "640032" with the
remainder after 6 characters when the data starts with "640032", else
prefix "64" with the remainder after 2 characters. -/
theorem claim_C7_ticket_pia :
    detect_provider (str "6412345678901") = some (str "ticket_pia") ∧
    getField (parse (str "6412345678901") none) (str "prefix") =
      some (FieldVal.s (str "64")) ∧
    getField (parse (str "6412345678901") none) (str "ticket_number") =
      some (FieldVal.s (str "12345678901")) ∧
    ∀ d : Str,
      getField (parse_ticket_pia d) (str "prefix") =
        some (FieldVal.s
          (if (str "640032").isPrefixOf d then str "640032" else str "64")) ∧
      getField (parse_ticket_pia d) (str "ticket_number") =
        some (FieldVal.s
          (if (str "640032").isPrefixOf d then d.drop 6 else d.drop 2)) := by
  refine ⟨by decide, by decide, by decide, ?_⟩
  intro d
  rw [parse_ticket_pia]
  by_cases h : (str "640032").isPrefixOf d = true
  · rw [if_pos h, if_pos h, if_pos h]
    exact ⟨rfl, rfl⟩
  · rw [if_neg h, if_neg h, if_neg h]
    exact ⟨rfl, rfl⟩

/-- Witness for C7 (the statement is hypothesis-free; this instantiates
the general extractor rule at a "640032"-prefixed payload). -/
theorem claim_C7_ticket_pia_witness :
    getField (parse_ticket_pia (str "6400321234567")) (str "prefix") =
      some (FieldVal.s (str "640032")) ∧
    getField (parse_ticket_pia (str "6400321234567")) (str "ticket_number") =
      some (FieldVal.s (str "1234567")) :=
  (claim_C7_ticket_pia.2.2.2 (str "6400321234567"))

/-- C8: the format guess on "4901234567894" is checksummed-13 (EAN13 in
source labels); every 13-digit string gets that label; and the heuristic
agrees everywhere with the spec wording of the branch order, under the
label correspondence `spec_label`. -/
theorem claim_C8_format_guess :
    spec_label (detect_format (str "4901234567894")) = str "checksummed-13" ∧
    (∀ s : Str, s.length = 13 → (∀ c ∈ s, isDigitChar c = true) →
      spec_label (detect_format s) = str "checksummed-13") ∧
    ∀ s : Str, spec_label (detect_format s) = detect_format_spec s := by
  have cond13 : ∀ s : Str, (decide (s.length = 13) && isDigitStr s) = true ↔
      s.length = 13 ∧ ∀ c ∈ s, isDigitChar c = true := by
    intro s
    rw [Bool.and_eq_true, decide_eq_true_eq, isDigitStr, Bool.and_eq_true,
      List.all_eq_true]
    constructor
    · rintro ⟨h13, -, hall⟩
      exact ⟨h13, hall⟩
    · rintro ⟨h13, hall⟩
      refine ⟨h13, ?_, hall⟩
      cases s with
      | nil => simp at h13
      | cons a t => rfl
  have condC39 : ∀ s : Str, (!s.isEmpty && s.all isCode39Char) = true ↔
      s ≠ [] ∧ ∀ c ∈ s, isCode39Char c = true := by
    intro s
    rw [Bool.and_eq_true, List.all_eq_true]
    cases s with
    | nil => simp
    | cons a t => simp
  have condITF : ∀ s : Str, (isDigitStr s && decide (s.length % 2 = 0)) = true ↔
      (s ≠ [] ∧ ∀ c ∈ s, isDigitChar c = true) ∧ s.length % 2 = 0 := by
    intro s
    rw [Bool.and_eq_true, decide_eq_true_eq, isDigitStr, Bool.and_eq_true,
      List.all_eq_true]
    cases s with
    | nil => simp
    | cons a t => simp
  have main : ∀ s : Str, spec_label (detect_format s) = detect_format_spec s := by
    intro s
    rw [detect_format, detect_format_spec]
    by_cases h1 : s.length = 13 ∧ ∀ c ∈ s, isDigitChar c = true
    · rw [if_pos ((cond13 s).mpr h1), if_pos h1]
      decide
    · rw [if_neg (fun hb => h1 ((cond13 s).mp hb)), if_neg h1]
      by_cases h2 : s ≠ [] ∧ ∀ c ∈ s, isCode39Char c = true
      · rw [if_pos ((condC39 s).mpr h2), if_pos h2]
        by_cases h3 : s.length ≤ 43
        · rw [if_pos h3, if_pos h3]
          decide
        · rw [if_neg h3, if_neg h3]
          decide
      · rw [if_neg (fun hb => h2 ((condC39 s).mp hb)), if_neg h2]
        by_cases h4 : (s ≠ [] ∧ ∀ c ∈ s, isDigitChar c = true) ∧ s.length % 2 = 0
        · rw [if_pos ((condITF s).mpr h4), if_pos h4]
          decide
        · rw [if_neg (fun hb => h4 ((condITF s).mp hb)), if_neg h4]
          decide
  refine ⟨by decide, ?_, main⟩
  intro s hlen hdig
  rw [main s, detect_format_spec, if_pos ⟨hlen, hdig⟩]

/-- Witness for C8: the 13-digit rule applied at the concrete payload. -/
theorem claim_C8_format_guess_witness :
    spec_label (detect_format (str "1230000000000")) = str "checksummed-13" :=
  claim_C8_format_guess.2.1 (str "1230000000000") (by decide) (by decide)

/-- C9: for every provider argument, `parse` of the empty string is the
empty mapping, and `detect_provider` of the empty string is `none`. -/
theorem claim_C9_empty_data :
    (∀ provider : Option Str, parse [] provider = []) ∧ detect_provider [] = none := by
  constructor
  · intro provider
    rw [parse, if_pos rfl]
  · rw [detect_provider, if_pos rfl]

/-- Witness for C9 (hypothesis-free; instantiated at a supplied provider
argument). -/
theorem claim_C9_empty_data_witness : parse [] (some (str "eplus")) = [] :=
  claim_C9_empty_data.1 (some (str "eplus"))

/-- C10: a nonempty provider hint that is none of the five registered
provider ids makes `scan_multiple_variants` return the empty candidate
list, because provider-pattern validation then checks an empty pattern
list and rejects every decode result.  (The empty-string hint is falsy in
the source and therefore does not reach provider-pattern validation.) -/
theorem claim_C10_unknown_provider_hint {α : Type} (engines : List (Engine α))
    (variants : List (ImageVariant α)) (fh : Option Str) (em : Bool) (h : Str)
    (hne : h ≠ [])
    (hunknown : h ∉ [str "seven_ticket", str "ticket_pia", str "lawson_ticket",
      str "eplus", str "cnplayguide"]) :
    scan_multiple_variants engines variants (some h) fh em = [] := by
  simp only [List.mem_cons, List.not_mem_nil, or_false, not_or] at hunknown
  obtain ⟨n1, n2, n3, n4, n5⟩ := hunknown
  have hpat : provider_patterns h = [] := by
    rw [provider_patterns, if_neg n1, if_neg n2, if_neg n3, if_neg n4, if_neg n5]
  have htr : truthy (some h) = true := by
    cases h with
    | nil => exact absurd rfl hne
    | cons a t => rfl
  have hval : ∀ r : Str, validate_result r (some h) = false := by
    intro r
    rw [validate_result, htr]
    by_cases h3 : r.length < 3
    · rw [if_pos h3]
    · rw [if_neg h3]
      by_cases hpr : (!isPrintableStr r) = true
      · rw [if_pos hpr]
      · rw [if_neg hpr, if_pos rfl, validate_provider_pattern, Option.getD_some, hpat]
        rfl
  have hdec : ∀ (e : Engine α) (v : ImageVariant α),
      decode_attempt e v (some h) fh = [] := by
    intro e v
    rw [decode_attempt]
    split
    · rfl
    · split
      · rfl
      · rw [List.filter_eq_nil_iff.mpr ?_]
        · rfl
        · intro r hr
          rw [hval r]
          exact Bool.false_ne_true
  have hraw : raw_results engines variants (some h) fh = [] := by
    rw [raw_results]
    exact flatMapL_eq_nil _ _ fun v _ => flatMapL_eq_nil _ _ fun e _ => hdec e v
  rw [scan_eq_pipeline, hraw]
  rfl

/-- Witness for C10: a concrete unknown hint at a concrete scan. -/
theorem claim_C10_unknown_provider_hint_witness :
    scan_multiple_variants [exEngine] [exVariant] (some (str "ticketmaster")) none true
      = [] :=
  claim_C10_unknown_provider_hint [exEngine] [exVariant] none true
    (str "ticketmaster") (by decide) (by decide)
